import Mathlib

/-!
Shallow embedding of the Catalog Integrity & Edit-Session Engine of the
admin-panel application (source: `src/src/App.tsx`).

Records are the `Product` rows of the table; all fields are strings, exactly
as in the TypeScript `interface Product`.  JavaScript `Map`s are embedded as
association lists in insertion order (`Map.set` replaces the value in place
when the key exists, else appends), `Array.prototype.sort` as a stable
top-down merge sort driven by the source's comparator, and the JSON
all-fields hash used by the exact-duplicate collapse as equality of the whole
record (the JSON encoding of the fixed field tuple is injective).
-/

structure Product where
  slug : String
  title : String
  image : String
  image_alt : String
  gender : String
  price_15ml : String
  price_30ml : String
  price_50ml : String
  brand : String
  top_notes : String
  heart_notes : String
  base_notes : String
  link : String
  stock_status : String
deriving DecidableEq, Repr

/-- JavaScript `String.prototype.toLowerCase`, embedded character-wise over
the string's character list. -/
def jsToLower (s : String) : String :=
  String.mk (s.data.map Char.toLower)

/-- JavaScript `String.prototype.trim`: drop whitespace from both ends. -/
def jsTrim (s : String) : String :=
  String.mk (((s.data.dropWhile Char.isWhitespace).reverse.dropWhile Char.isWhitespace).reverse)

/-- `isInvalidPrice` from `checkDataQuality` (App.tsx lines 347-351): a price
is invalid when falsy (empty) or when its trimmed form is `""`, `"-"`, `"0"`
or `"N/A"`. -/
def isInvalidPrice (price : String) : Bool :=
  if price == "" then true
  else jsTrim price == "" || jsTrim price == "-" || jsTrim price == "0" || jsTrim price == "N/A"

/-- Truthy non-blank test used for the three note fields
(`product.top_notes && product.top_notes.trim() !== ''`). -/
def hasNote (s : String) : Bool :=
  s != "" && jsTrim s != ""

/-- Pass-1 frequency count of a lowercase-normalized slug key over the whole
record sequence (`slugCounts` in `checkDataQuality`). -/
def slugCntOf (l : List Product) (k : String) : Nat :=
  l.countP (fun q => (jsToLower q.slug) == k)

/-- Pass-1 frequency count of a lowercase-normalized title key
(`titleCounts` in `checkDataQuality`). -/
def titleCntOf (l : List Product) (k : String) : Nat :=
  l.countP (fun q => (jsToLower q.title) == k)

/-- Pass 2 of `checkDataQuality` (App.tsx lines 335-400) for one record: the
ordered defect-tag list pushed for `product`, given the two pass-1 count
maps.  The pushes happen in exactly this source order: `duplicate`,
`no-price-15ml`, `no-price-30ml`, `no-price-50ml`, `no-image`, `no-notes`,
`no-brand`, `no-slug`, `no-title`, and finally `no-prices`. -/
def productIssues (slugCnt titleCnt : String → Nat) (p : Product) : List String :=
  (if 1 < slugCnt (jsToLower p.slug) || 1 < titleCnt (jsToLower p.title) then ["duplicate"] else []) ++
  (if isInvalidPrice p.price_15ml then ["no-price-15ml"] else []) ++
  (if isInvalidPrice p.price_30ml then ["no-price-30ml"] else []) ++
  (if isInvalidPrice p.price_50ml then ["no-price-50ml"] else []) ++
  (if p.image == "" || (jsTrim p.image) == "" then ["no-image"] else []) ++
  (if !hasNote p.top_notes && !hasNote p.heart_notes && !hasNote p.base_notes then ["no-notes"] else []) ++
  (if p.brand == "" || (jsTrim p.brand) == "" then ["no-brand"] else []) ++
  (if p.slug == "" || (jsTrim p.slug) == "" then ["no-slug"] else []) ++
  (if p.title == "" || (jsTrim p.title) == "" then ["no-title"] else []) ++
  (if !(!isInvalidPrice p.price_15ml || !isInvalidPrice p.price_30ml || !isInvalidPrice p.price_50ml)
    then ["no-prices"] else [])

/-- The defect list of `p` relative to the full sequence `l` (counts taken
over `l`). -/
def productIssuesFull (l : List Product) (p : Product) : List String :=
  productIssues (slugCntOf l) (titleCntOf l) p

/-- The map key used by `checkDataQuality` when storing a record's defect
list: `product.slug || product.title || 'unknown'`. -/
def identityKey (p : Product) : String :=
  if p.slug != "" then p.slug else if p.title != "" then p.title else "unknown"

/-- JavaScript `Map.set` on an association list: replace the value in place
when the key is present, else append the pair. -/
def setKey (m : List (String × List String)) (k : String) (v : List String) :
    List (String × List String) :=
  if m.any (fun e => e.1 == k) then m.map (fun e => if e.1 == k then (k, v) else e)
  else m ++ [(k, v)]

/-- JavaScript `Map.get` on an association list. -/
def lookupKey (m : List (String × List String)) (k : String) : Option (List String) :=
  (m.find? (fun e => e.1 == k)).map Prod.snd

/-- JavaScript `Map.has` on an association list. -/
def hasKeyIss (m : List (String × List String)) (k : String) : Bool :=
  m.any (fun e => e.1 == k)

/-- Number of entries of the association list carrying key `k`. -/
def keyCount (m : List (String × List String)) (k : String) : Nat :=
  m.countP (fun e => e.1 == k)

/-- One iteration of the final `forEach` of `checkDataQuality` (App.tsx
lines 402-404): store the record's defect list under its identity key, but
only when the list is non-empty. -/
def qualityStep (slugCnt titleCnt : String → Nat) (m : List (String × List String))
    (p : Product) : List (String × List String) :=
  if (productIssues slugCnt titleCnt p).length > 0 then
    setKey m (identityKey p) (productIssues slugCnt titleCnt p)
  else m

/-- `checkDataQuality` (App.tsx lines 294-408), restricted to its returned
issues map (the duplicate-group color side channel is modelled separately by
`duplicateGroupsOf`). -/
def checkDataQuality (l : List Product) : List (String × List String) :=
  l.foldl (qualityStep (slugCntOf l) (titleCntOf l)) []

/-- The defect list of the last record of the sequence whose identity key is
`k` and whose defect list is non-empty (searching from the right). -/
def lastDef (slugCnt titleCnt : String → Nat) (k : String) :
    List Product → Option (List String)
  | [] => none
  | p :: ps =>
    match lastDef slugCnt titleCnt k ps with
    | some v => some v
    | none =>
      if identityKey p == k && !(productIssues slugCnt titleCnt p).isEmpty then
        some (productIssues slugCnt titleCnt p)
      else none

/-- The fixed 17-entry color palette `duplicateColors` of `checkDataQuality`
(App.tsx lines 299-304). -/
def duplicateColors : List String :=
  ["#ef4444", "#f97316", "#f59e0b", "#eab308", "#84cc16",
   "#22c55e", "#10b981", "#14b8a6", "#06b6d4", "#0ea5e9",
   "#3b82f6", "#6366f1", "#8b5cf6", "#a855f7", "#d946ef",
   "#ec4899", "#f43f5e"]

/-- `duplicateColors[colorIndex % duplicateColors.length]`. -/
def paletteAt (i : Nat) : String :=
  duplicateColors.getD (i % duplicateColors.length) ""

/-- `Map.has` on the string-to-color association list `duplicateGroups`. -/
def hasKeyS (m : List (String × String)) (k : String) : Bool :=
  m.any (fun e => e.1 == k)

/-- One branch of the color-assignment `forEach` of `checkDataQuality`
(App.tsx lines 316-329): when the key's count exceeds 1 and the shared
`duplicateGroups` map has no entry for it yet, append
`(key, duplicateColors[colorIndex % 17])` and bump the global
`colorIndex`. -/
def maybeAssign (cnt : String → Nat) (key : String)
    (acc : List (String × String) × Nat) : List (String × String) × Nat :=
  if 1 < cnt key && !hasKeyS acc.1 key then
    (acc.1 ++ [(key, paletteAt acc.2)], acc.2 + 1)
  else acc

/-- One iteration of the color-assignment `forEach`: the slug key is
considered first, then the title key, both against the same shared map and
the same global color index. -/
def assignStep (slugCnt titleCnt : String → Nat)
    (acc : List (String × String) × Nat) (p : Product) :
    List (String × String) × Nat :=
  maybeAssign titleCnt (jsToLower p.title) (maybeAssign slugCnt (jsToLower p.slug) acc)

/-- The `duplicateGroups` cluster-key → color map built by `checkDataQuality`
(published via a window global in the source), in assignment order. -/
def duplicateGroupsOf (l : List Product) : List (String × String) :=
  (l.foldl (assignStep (slugCntOf l) (titleCntOf l)) ([], 0)).1

/-- The walk shared by `removeCompleteDuplicates` and
`detectCompleteDuplicates` (App.tsx lines 205-291): records already seen
(JSON all-fields hash, i.e. full-record equality) are removal candidates;
first occurrences are kept.  Returns the kept subsequence and the number of
discarded records. -/
def collapseWalk (seen : List Product) : List Product → List Product × Nat
  | [] => ([], 0)
  | p :: ps =>
    if p ∈ seen then
      let r := collapseWalk seen ps
      (r.1, r.2 + 1)
    else
      let r := collapseWalk (p :: seen) ps
      (p :: r.1, r.2)

/-- `detectCompleteDuplicates` (App.tsx lines 261-291): count of records that
repeat an earlier record on every field. -/
def detectCompleteDuplicates (l : List Product) : Nat :=
  (collapseWalk [] l).2

/-- Observable outcome of one invocation of `removeCompleteDuplicates`:
the resulting collection, whether quality analysis was re-run, whether a CSV
export was triggered, and whether the no-op message was shown instead. -/
structure RemoveResult where
  products : List Product
  reAnalyzed : Bool
  exported : Bool
  reportedNothing : Bool
deriving DecidableEq, Repr

/-- `removeCompleteDuplicates` (App.tsx lines 205-258): when at least one
record was discarded, install the kept subsequence, re-run the analyzer and
download the cleaned CSV; otherwise leave the collection alone and only
report that nothing was found. -/
def removeCompleteDuplicates (products : List Product) : RemoveResult :=
  let w := collapseWalk [] products
  if 0 < w.2 then
    { products := w.1, reAnalyzed := true, exported := true, reportedNothing := false }
  else
    { products := products, reAnalyzed := false, exported := false, reportedNothing := true }

/-- Whether `pat` occurs at the very front of `l`. -/
def leadsWith : List Char → List Char → Bool
  | [], _ => true
  | _ :: _, [] => false
  | a :: pat, b :: l => a == b && leadsWith pat l

/-- Whether `pat` occurs somewhere inside `l` (substring search). -/
def hasSub (pat : List Char) : List Char → Bool
  | [] => pat.isEmpty
  | b :: l => leadsWith pat (b :: l) || hasSub pat l

/-- JavaScript `String.prototype.includes`: the empty pattern is contained in
every string; otherwise plain substring search. -/
def strContains (s pat : String) : Bool :=
  hasSub pat.data s.data

/-- The search predicate of `filteredProducts` (App.tsx lines 519-523):
title, brand or slug contains the search term, case-insensitively. -/
def searchMatch (term : String) (p : Product) : Bool :=
  strContains (jsToLower p.title) (jsToLower term) ||
  strContains (jsToLower p.brand) (jsToLower term) ||
  strContains (jsToLower p.slug) (jsToLower term)

/-- The quality/duplicate filter of `filteredProducts` (App.tsx lines
526-539): active only when the issues-only flag is set; a duplicate anchor
narrows to records matching the anchor on slug or title, otherwise records
present in the issues map (under key `slug || title || ''`) are kept. -/
def qualityFilterStep (showQualityFilter : Bool) (duplicateFilter : Option String)
    (issues : List (String × List String)) (l : List Product) : List Product :=
  if showQualityFilter then
    match duplicateFilter with
    | some anchor =>
      l.filter (fun p => (jsToLower p.slug) == (jsToLower anchor) || (jsToLower p.title) == (jsToLower anchor))
    | none =>
      l.filter (fun p =>
        hasKeyIss issues (if p.slug != "" then p.slug else if p.title != "" then p.title else ""))
  else l

/-- Whether `p`'s lowercase slug occurs more than once in `l`
(`filtered.filter(p => p.slug?.toLowerCase() === aSlug).length > 1`). -/
def slugDupIn (l : List Product) (p : Product) : Bool :=
  1 < l.countP (fun q => (jsToLower q.slug) == (jsToLower p.slug))

/-- Whether `p`'s lowercase title occurs more than once in `l`. -/
def titleDupIn (l : List Product) (p : Product) : Bool :=
  1 < l.countP (fun q => (jsToLower q.title) == (jsToLower p.title))

/-- Whether `p` belongs to any duplicate cluster of `l`. -/
def hasDup (l : List Product) (p : Product) : Bool :=
  slugDupIn l p || titleDupIn l p

/-- Sign of the code-point string comparison, standing in for
`localeCompare`. -/
def strCompareInt (a b : String) : Int :=
  match compare a b with
  | Ordering.lt => -1
  | Ordering.eq => 0
  | Ordering.gt => 1

/-- The grouping-sort comparator of `filteredProducts` (App.tsx lines
542-574).  The duplicate counts are taken over the filtered list `l` (the
multiset being sorted, so any permutation yields the same counts). -/
def jsCompare (l : List Product) (a b : Product) : Int :=
  let aSlugD := slugDupIn l a
  let bSlugD := slugDupIn l b
  let aTitleD := titleDupIn l a
  let bTitleD := titleDupIn l b
  let aHasD := aSlugD || aTitleD
  let bHasD := bSlugD || bTitleD
  if aHasD && !bHasD then -1
  else if !aHasD && bHasD then 1
  else if aSlugD && bSlugD then
    (if (jsToLower a.slug) == (jsToLower b.slug) then 0 else strCompareInt (jsToLower a.slug) (jsToLower b.slug))
  else if aTitleD && bTitleD then
    (if (jsToLower a.title) == (jsToLower b.title) then 0 else strCompareInt (jsToLower a.title) (jsToLower b.title))
  else 0

/-- Fueled stable merge of two lists: take from the left run while the
comparator does not strictly prefer the right element, as a stable
`Array.prototype.sort` does. -/
def mergeF (le : Product → Product → Bool) : Nat → List Product → List Product → List Product
  | 0, xs, ys => xs ++ ys
  | _ + 1, [], ys => ys
  | _ + 1, x :: xs, [] => x :: xs
  | n + 1, x :: xs, y :: ys =>
    if le x y then x :: mergeF le n xs (y :: ys) else y :: mergeF le n (x :: xs) ys

/-- Stable merge with exactly enough fuel. -/
def mergeL (le : Product → Product → Bool) (xs ys : List Product) : List Product :=
  mergeF le (xs.length + ys.length) xs ys

/-- Fueled stable top-down merge sort embedding the in-place stable
`filtered.sort(comparator)` call. -/
def mergeSortF (le : Product → Product → Bool) : Nat → List Product → List Product
  | 0, l => l
  | n + 1, l =>
    if l.length ≤ 1 then l
    else
      mergeL le (mergeSortF le n (l.take (l.length / 2)))
        (mergeSortF le n (l.drop (l.length / 2)))

/-- Stable sort with the source comparator over the filtered list. -/
def jsSort (l : List Product) : List Product :=
  mergeSortF (fun a b => decide (jsCompare l a b ≤ 0)) l.length l

/-- `filteredProducts` (App.tsx lines 518-577): search filter, then the
quality/duplicate filter, then the grouping sort. -/
def filteredProducts (products : List Product) (term : String)
    (showQualityFilter : Bool) (duplicateFilter : Option String)
    (issues : List (String × List String)) : List Product :=
  jsSort (qualityFilterStep showQualityFilter duplicateFilter issues
    (products.filter (searchMatch term)))

/-- The two deferred navigation closures stored in `pendingAction`
(App.tsx lines 746-774): closing the detail panel, or selecting another
record. -/
inductive PendingAction where
  | closePanel
  | selectProduct (p : Product)
deriving DecidableEq, Repr

/-- The slice of the component state the Edit-Session State Machine operates
on. -/
structure AppState where
  products : List Product
  selectedProduct : Option Product
  editedProduct : Option Product
  hasUnsavedChanges : Bool
  showConfirmModal : Bool
  pendingAction : Option PendingAction
  showDetailPanel : Bool
deriving DecidableEq, Repr

/-- Run a queued navigation closure (the bodies of the two
`setPendingAction(() => () => ...)` call sites). -/
def runPendingAction (a : PendingAction) (s : AppState) : AppState :=
  match a with
  | PendingAction.closePanel =>
    { s with showDetailPanel := false, selectedProduct := none, editedProduct := none }
  | PendingAction.selectProduct p =>
    { s with selectedProduct := some p, editedProduct := none, showDetailPanel := true }

/-- `handleSaveChanges` (App.tsx lines 723-734): when a draft and a selection
both exist, replace every record whose slug equals the ORIGINAL selected
record's slug by the draft, select the draft, clear the draft and the dirty
flag. -/
def handleSaveChanges (s : AppState) : AppState :=
  match s.editedProduct, s.selectedProduct with
  | some ep, some sp =>
    { s with
      products := s.products.map (fun p => if p.slug == sp.slug then ep else p),
      selectedProduct := some ep,
      editedProduct := none,
      hasUnsavedChanges := false }
  | _, _ => s

/-- `handleDiscardChanges` (App.tsx lines 736-744): clear the draft, the
dirty flag and the confirmation modal; then, if an action is queued, execute
it and clear the queue. -/
def handleDiscardChanges (s : AppState) : AppState :=
  let s1 := { s with editedProduct := none, hasUnsavedChanges := false, showConfirmModal := false }
  match s.pendingAction with
  | some a => { runPendingAction a s1 with pendingAction := none }
  | none => s1

/-- The `onClick` of the confirmation dialog's cancel button (App.tsx line
1446): `setShowConfirmModal(false)` and nothing else. -/
def confirmCancel (s : AppState) : AppState :=
  { s with showConfirmModal := false }

/-- `handleProductClick` (App.tsx lines 761-774): while dirty, queue the
selection and open the confirmation; otherwise select immediately. -/
def handleProductClick (s : AppState) (p : Product) : AppState :=
  if s.hasUnsavedChanges then
    { s with pendingAction := some (PendingAction.selectProduct p), showConfirmModal := true }
  else
    { s with selectedProduct := some p, editedProduct := none, showDetailPanel := true }

/-- `handleCloseWithCheck` (App.tsx lines 746-759). -/
def handleCloseWithCheck (s : AppState) : AppState :=
  if s.hasUnsavedChanges then
    { s with pendingAction := some PendingAction.closePanel, showConfirmModal := true }
  else
    { s with showDetailPanel := false, selectedProduct := none, editedProduct := none }

/-- `handleDeleteProduct` (App.tsx lines 776-787), confirmed branch: drop
every record sharing the deleted record's slug; when the deleted record was
the selected one, move the selection to the first remaining record (or none)
and close the panel.  The draft and dirty flag are not touched. -/
def handleDeleteProduct (s : AppState) (product : Product) : AppState :=
  let updated := s.products.filter (fun p => p.slug != product.slug)
  let s1 := { s with products := updated }
  match s.selectedProduct with
  | some sp =>
    if sp.slug == product.slug then
      { s1 with selectedProduct := updated.head?, showDetailPanel := false }
    else s1
  | none => s1

/-- A record with every field empty, used as a concrete test input. -/
def emptyProduct : Product := ⟨"", "", "", "", "", "", "", "", "", "", "", "", "", ""⟩

lemma ite_single_sublist (c : Bool) (x : String) (L : List String) (h : x ∈ L) :
    (if c then [x] else []).Sublist L := by
  cases c <;> simp [List.singleton_sublist, h]

lemma count_tag_ite (a b : String) (c : Bool) :
    List.count a (if c then [b] else []) = if c && (b == a) then 1 else 0 := by
  cases c <;> by_cases hb : b = a <;> simp [List.count_cons, hb]

/-- C1 (amended): a record's defect list always follows the fixed check order
of the code — `duplicate`, `no-price-15ml`, `no-price-30ml`, `no-price-50ml`,
`no-image`, `no-notes`, `no-brand`, `no-slug`, `no-title`, and `no-prices`
LAST (the claim instead places `no-price-at-all` third, before the
image/notes/brand/slug/title tags). -/
theorem claim_C1_order (slugCnt titleCnt : String → Nat) (p : Product) :
    (productIssues slugCnt titleCnt p).Sublist
      ["duplicate", "no-price-15ml", "no-price-30ml", "no-price-50ml", "no-image",
       "no-notes", "no-brand", "no-slug", "no-title", "no-prices"] := by
  show List.Sublist _ (((((((((["duplicate"] ++ ["no-price-15ml"]) ++ ["no-price-30ml"]) ++
    ["no-price-50ml"]) ++ ["no-image"]) ++ ["no-notes"]) ++ ["no-brand"]) ++ ["no-slug"]) ++
    ["no-title"]) ++ ["no-prices"])
  unfold productIssues
  refine List.Sublist.append ?_ (ite_single_sublist _ _ _ (by simp))
  refine List.Sublist.append ?_ (ite_single_sublist _ _ _ (by simp))
  refine List.Sublist.append ?_ (ite_single_sublist _ _ _ (by simp))
  refine List.Sublist.append ?_ (ite_single_sublist _ _ _ (by simp))
  refine List.Sublist.append ?_ (ite_single_sublist _ _ _ (by simp))
  refine List.Sublist.append ?_ (ite_single_sublist _ _ _ (by simp))
  refine List.Sublist.append ?_ (ite_single_sublist _ _ _ (by simp))
  refine List.Sublist.append ?_ (ite_single_sublist _ _ _ (by simp))
  exact List.Sublist.append (ite_single_sublist _ _ _ (by simp)) (ite_single_sublist _ _ _ (by simp))

/-- C1 counterexample: for the all-empty record (all three price fields
invalid, empty title) the analyzer emits
`no-price-15ml, no-price-30ml, no-price-50ml, no-image, no-notes, no-brand,
no-slug, no-title, no-prices` — so the `no-prices` tag does NOT precede the
`no-image` tag, nor the `no-title` tag, contradicting the claimed §4.1 order
in which `no-price-at-all` comes third. -/
theorem claim_C1_counterexample :
    productIssuesFull [emptyProduct] emptyProduct =
      ["no-price-15ml", "no-price-30ml", "no-price-50ml", "no-image", "no-notes",
       "no-brand", "no-slug", "no-title", "no-prices"] ∧
    ¬ (["no-prices", "no-image"].Sublist (productIssuesFull [emptyProduct] emptyProduct)) ∧
    ¬ (["no-prices", "no-title"].Sublist (productIssuesFull [emptyProduct] emptyProduct)) := by
  decide

lemma count_dup (sc tc : String → Nat) (p : Product) :
    List.count "duplicate" (productIssues sc tc p)
      = if 1 < sc (jsToLower p.slug) || 1 < tc (jsToLower p.title) then 1 else 0 := by
  simp only [productIssues, List.count_append, count_tag_ite]
  simp only [show (("duplicate" : String) == "duplicate") = true from by decide,
    show (("no-price-15ml" : String) == "duplicate") = false from by decide,
    show (("no-price-30ml" : String) == "duplicate") = false from by decide,
    show (("no-price-50ml" : String) == "duplicate") = false from by decide,
    show (("no-image" : String) == "duplicate") = false from by decide,
    show (("no-notes" : String) == "duplicate") = false from by decide,
    show (("no-brand" : String) == "duplicate") = false from by decide,
    show (("no-slug" : String) == "duplicate") = false from by decide,
    show (("no-title" : String) == "duplicate") = false from by decide,
    show (("no-prices" : String) == "duplicate") = false from by decide,
    Bool.and_true, Bool.and_false]
  simp

/-- C3: a record's defect list contains the `duplicate` tag, and contains it
exactly once, if and only if at least two records of the sequence share its
lowercase-normalized slug or at least two share its lowercase-normalized
title. -/
theorem claim_C3_duplicate_iff_cluster (l : List Product) (p : Product) :
    ("duplicate" ∈ productIssuesFull l p ∧
      List.count "duplicate" (productIssuesFull l p) = 1) ↔
    (2 ≤ slugCntOf l (jsToLower p.slug) ∨ 2 ≤ titleCntOf l (jsToLower p.title)) := by
  have h := count_dup (slugCntOf l) (titleCntOf l) p
  rw [productIssuesFull]
  constructor
  · rintro ⟨hmem, hcnt⟩
    rw [h] at hcnt
    by_contra hcon
    push_neg at hcon
    obtain ⟨h1, h2⟩ := hcon
    rw [if_neg] at hcnt
    · exact absurd hcnt (by decide)
    · simp only [Bool.or_eq_true, decide_eq_true_eq]
      push_neg
      exact ⟨by omega, by omega⟩
  · intro hcl
    have hcond : (decide (1 < (slugCntOf l) (jsToLower p.slug)) ||
        decide (1 < (titleCntOf l) (jsToLower p.title))) = true := by
      simp only [Bool.or_eq_true, decide_eq_true_eq]
      omega
    have hcnt : List.count "duplicate" (productIssues (slugCntOf l) (titleCntOf l) p) = 1 := by
      rw [h, if_pos hcond]
    refine ⟨?_, hcnt⟩
    have hp := List.count_pos_iff (a := "duplicate")
      (l := productIssues (slugCntOf l) (titleCntOf l) p)
    exact hp.mp (by omega)

/-- C2: explicit Save replaces exactly the records whose slug matches the
ORIGINAL selected record's slug with the draft (even when the draft's slug
was edited), keeps the collection's record count unchanged (no duplicate, no
orphan), selects the saved draft, clears the dirty flag and clears the
draft. -/
theorem claim_C2_save (s : AppState) (ep sp : Product)
    (h1 : s.editedProduct = some ep) (h2 : s.selectedProduct = some sp) :
    (handleSaveChanges s).products = s.products.map (fun p => if p.slug == sp.slug then ep else p) ∧
    (handleSaveChanges s).products.length = s.products.length ∧
    (handleSaveChanges s).selectedProduct = some ep ∧
    (handleSaveChanges s).editedProduct = none ∧
    (handleSaveChanges s).hasUnsavedChanges = false := by
  simp [handleSaveChanges, h1, h2]

/-- The selected record for the C2 witness. -/
def c2sp : Product := { emptyProduct with slug := "a", title := "T" }

/-- The draft for the C2 witness, with an edited slug. -/
def c2ep : Product := { c2sp with slug := "b" }

/-- The pre-save state for the C2 witness. -/
def c2state : AppState := ⟨[c2sp], some c2sp, some c2ep, true, false, none, true⟩

/-- C2 witness: saving a one-record collection where the draft's slug was
edited from `"a"` to `"b"`. -/
theorem claim_C2_save_witness :
    c2state.editedProduct = some c2ep ∧ c2state.selectedProduct = some c2sp ∧
    ((handleSaveChanges c2state).products =
        c2state.products.map (fun p => if p.slug == c2sp.slug then c2ep else p) ∧
      (handleSaveChanges c2state).products.length = c2state.products.length ∧
      (handleSaveChanges c2state).selectedProduct = some c2ep ∧
      (handleSaveChanges c2state).editedProduct = none ∧
      (handleSaveChanges c2state).hasUnsavedChanges = false) :=
  ⟨rfl, rfl, claim_C2_save c2state c2ep c2sp rfl rfl⟩

/-- First record of the C4 scenario. -/
def c4r1 : Product := { emptyProduct with slug := "r1", title := "One" }

/-- Second record of the C4 scenario, target of the queued navigation. -/
def c4r2 : Product := { emptyProduct with slug := "r2", title := "Two" }

/-- Dirty draft of `c4r1`. -/
def c4draft : Product := { c4r1 with brand := "edited" }

/-- A ConfirmingDiscard state: editing `c4r1` with unsaved changes, and a
navigation to `c4r2` queued behind the confirmation dialog. -/
def c4state : AppState :=
  ⟨[c4r1, c4r2], some c4r1, some c4draft, true, true,
    some (PendingAction.selectProduct c4r2), true⟩

/-- C4 counterexample: cancelling the confirmation does NOT drop the queued
action — it stays queued — and a later Discard performed without any new
navigation attempt executes the previously queued navigation (the selection
jumps from `c4r1` to `c4r2`), contradicting the claim. -/
theorem claim_C4_counterexample :
    (confirmCancel c4state).pendingAction = some (PendingAction.selectProduct c4r2) ∧
    (confirmCancel c4state).editedProduct = some c4draft ∧
    c4state.selectedProduct = some c4r1 ∧
    (handleDiscardChanges (confirmCancel c4state)).selectedProduct = some c4r2 ∧
    c4r2 ≠ c4r1 := by
  decide

/-- C4 (amended): cancelling the confirmation hides the dialog and the draft
remains, but the queued action is RETAINED rather than dropped; consequently
a later Discard performed without any new navigation attempt still executes
the previously queued navigation (after clearing the draft) and only then
clears the queue. -/
theorem claim_C4_cancel_keeps_queue (s : AppState) :
    (confirmCancel s).showConfirmModal = false ∧
    (confirmCancel s).editedProduct = s.editedProduct ∧
    (confirmCancel s).hasUnsavedChanges = s.hasUnsavedChanges ∧
    (confirmCancel s).pendingAction = s.pendingAction ∧
    (∀ a, s.pendingAction = some a →
      handleDiscardChanges (confirmCancel s) =
        { runPendingAction a
            { s with editedProduct := none, hasUnsavedChanges := false,
                     showConfirmModal := false } with
          pendingAction := none }) := by
  refine ⟨rfl, rfl, rfl, rfl, ?_⟩
  intro a ha
  simp [handleDiscardChanges, confirmCancel, ha, runPendingAction]

/-- C4 witness: the amended behaviour evaluated on the concrete
ConfirmingDiscard state `c4state`. -/
theorem claim_C4_cancel_keeps_queue_witness :
    (confirmCancel c4state).showConfirmModal = false ∧
    (confirmCancel c4state).editedProduct = c4state.editedProduct ∧
    (confirmCancel c4state).hasUnsavedChanges = c4state.hasUnsavedChanges ∧
    (confirmCancel c4state).pendingAction = c4state.pendingAction ∧
    handleDiscardChanges (confirmCancel c4state) =
      { runPendingAction (PendingAction.selectProduct c4r2)
          { c4state with editedProduct := none, hasUnsavedChanges := false,
                         showConfirmModal := false } with
        pendingAction := none } := by
  obtain ⟨h1, h2, h3, h4, h5⟩ := claim_C4_cancel_keeps_queue c4state
  exact ⟨h1, h2, h3, h4, h5 _ rfl⟩

/-- C10: deleting the currently selected record drops every record with its
slug from the collection and moves the selection to the first remaining
record (or none), while the edit-draft overlay and the dirty flag are left
completely unchanged — the dirty draft persists and overlays the newly
selected record. -/
theorem claim_C10_delete_keeps_draft (s : AppState) (tgt d sp : Product)
    (h1 : s.editedProduct = some d) (h2 : s.hasUnsavedChanges = true)
    (h3 : s.selectedProduct = some sp) (h4 : sp.slug = tgt.slug) :
    (handleDeleteProduct s tgt).editedProduct = some d ∧
    (handleDeleteProduct s tgt).hasUnsavedChanges = true ∧
    (handleDeleteProduct s tgt).products = s.products.filter (fun p => p.slug != tgt.slug) ∧
    (handleDeleteProduct s tgt).selectedProduct =
      (s.products.filter (fun p => p.slug != tgt.slug)).head? := by
  simp [handleDeleteProduct, h1, h2, h3, h4]

/-- State for the C10 witness: `c4r1` selected with a dirty draft, no
confirmation pending. -/
def c10state : AppState :=
  ⟨[c4r1, c4r2], some c4r1, some c4draft, true, false, none, true⟩

/-- C10 witness: deleting the selected record `c4r1` while its dirty draft
`c4draft` is live. -/
theorem claim_C10_delete_keeps_draft_witness :
    c10state.editedProduct = some c4draft ∧ c10state.hasUnsavedChanges = true ∧
    c10state.selectedProduct = some c4r1 ∧ c4r1.slug = c4r1.slug ∧
    ((handleDeleteProduct c10state c4r1).editedProduct = some c4draft ∧
      (handleDeleteProduct c10state c4r1).hasUnsavedChanges = true ∧
      (handleDeleteProduct c10state c4r1).products =
        c10state.products.filter (fun p => p.slug != c4r1.slug) ∧
      (handleDeleteProduct c10state c4r1).selectedProduct =
        (c10state.products.filter (fun p => p.slug != c4r1.slug)).head?) :=
  ⟨rfl, rfl, rfl, rfl, claim_C10_delete_keeps_draft c10state c4r1 c4draft c4r1 rfl rfl rfl rfl⟩

lemma collapseWalk_not_mem_seen (l : List Product) :
    ∀ seen, ∀ q ∈ (collapseWalk seen l).1, q ∉ seen := by
  induction l with
  | nil => intro seen q hq; simp [collapseWalk] at hq
  | cons p ps ih =>
    intro seen q hq
    by_cases hp : p ∈ seen
    · simp only [collapseWalk, if_pos hp] at hq
      exact ih seen q hq
    · simp only [collapseWalk, if_neg hp] at hq
      rcases List.mem_cons.mp hq with hq | hq
      · subst hq; exact hp
      · intro hmem
        exact (ih (p :: seen) q hq) (List.mem_cons_of_mem p hmem)

lemma collapseWalk_nodup (l : List Product) :
    ∀ seen, (collapseWalk seen l).1.Nodup := by
  induction l with
  | nil => intro seen; simp [collapseWalk]
  | cons p ps ih =>
    intro seen
    by_cases hp : p ∈ seen
    · simpa only [collapseWalk, if_pos hp] using ih seen
    · simp only [collapseWalk, if_neg hp]
      refine List.Nodup.cons ?_ (ih (p :: seen))
      intro hmem
      exact (collapseWalk_not_mem_seen ps (p :: seen) p hmem) (List.mem_cons_self p seen)

lemma collapseWalk_of_nodup (l : List Product) :
    ∀ seen, l.Nodup → (∀ q ∈ l, q ∉ seen) → collapseWalk seen l = (l, 0) := by
  induction l with
  | nil => intro seen _ _; rfl
  | cons p ps ih =>
    intro seen hnd hdisj
    have hp : p ∉ seen := hdisj p (List.mem_cons_self p ps)
    simp only [collapseWalk, if_neg hp]
    have hrec : collapseWalk (p :: seen) ps = (ps, 0) := by
      refine ih (p :: seen) (List.Nodup.of_cons hnd) ?_
      intro q hq hmem
      rcases List.mem_cons.mp hmem with h | h
      · subst h; exact (List.nodup_cons.mp hnd).1 hq
      · exact hdisj q (List.mem_cons_of_mem p hq) h
    rw [hrec]

lemma collapseWalk_zero_eq (seen : List Product) (l : List Product)
    (h : (collapseWalk seen l).2 = 0) : (collapseWalk seen l).1 = l := by
  induction l generalizing seen with
  | nil => rfl
  | cons p ps ih =>
    by_cases hp : p ∈ seen
    · simp only [collapseWalk, if_pos hp] at h
      omega
    · simp only [collapseWalk, if_neg hp] at h ⊢
      rw [ih (p :: seen) h]

/-- C6: Exact-Duplicate Collapse is idempotent — after one removal pass
(keep the first occurrence of each all-fields key), detection on the result
reports zero removal candidates, and a second removal pass leaves the result
unchanged. -/
theorem claim_C6_collapse_idempotent (l : List Product) :
    detectCompleteDuplicates (removeCompleteDuplicates l).products = 0 ∧
    (removeCompleteDuplicates (removeCompleteDuplicates l).products).products =
      (removeCompleteDuplicates l).products := by
  have hwalk : ∀ m : List Product, m.Nodup → collapseWalk [] m = (m, 0) := by
    intro m hm
    exact collapseWalk_of_nodup m [] hm (by intro q _ h; simp at h)
  have hobs : (removeCompleteDuplicates l).products = (collapseWalk [] l).1 := by
    unfold removeCompleteDuplicates
    by_cases h : 0 < (collapseWalk [] l).2
    · simp [h]
    · simp only [if_neg h]
      have h0 : (collapseWalk [] l).2 = 0 := by omega
      exact (collapseWalk_zero_eq [] l h0).symm
  have hnd : (collapseWalk [] l).1.Nodup := collapseWalk_nodup l []
  have hfix : collapseWalk [] (collapseWalk [] l).1 = ((collapseWalk [] l).1, 0) :=
    hwalk _ hnd
  refine ⟨?_, ?_⟩
  · rw [hobs]
    unfold detectCompleteDuplicates
    rw [hfix]
  · rw [hobs]
    unfold removeCompleteDuplicates
    rw [hfix]
    simp

/-- C7: when the collection holds no exact-duplicate pair (zero removal
candidates), invoking removal is a no-op — the collection is unchanged, no
re-analysis runs, no export is produced, and the operation reports that
there is nothing to remove. -/
theorem claim_C7_noop (l : List Product) (h : detectCompleteDuplicates l = 0) :
    removeCompleteDuplicates l =
      { products := l, reAnalyzed := false, exported := false, reportedNothing := true } := by
  unfold removeCompleteDuplicates
  unfold detectCompleteDuplicates at h
  simp [h]

/-- C7 witness: the singleton collection has no exact duplicates and removal
leaves it untouched. -/
theorem claim_C7_noop_witness :
    detectCompleteDuplicates [emptyProduct] = 0 ∧
    removeCompleteDuplicates [emptyProduct] =
      { products := [emptyProduct], reAnalyzed := false, exported := false,
        reportedNothing := true } :=
  ⟨by decide, claim_C7_noop [emptyProduct] (by decide)⟩

lemma maybeAssign_inv (cnt : String → Nat) (key : String)
    (acc : List (String × String) × Nat)
    (h1 : acc.2 = acc.1.length)
    (h2 : acc.1.map Prod.snd = (List.range acc.1.length).map paletteAt) :
    (maybeAssign cnt key acc).2 = (maybeAssign cnt key acc).1.length ∧
    (maybeAssign cnt key acc).1.map Prod.snd =
      (List.range (maybeAssign cnt key acc).1.length).map paletteAt := by
  unfold maybeAssign
  split
  · constructor
    · simp [h1]
    · simp [List.range_succ, h2, h1]
  · exact ⟨h1, h2⟩

lemma hasKeyS_maybeAssign (cnt : String → Nat) (key : String)
    (acc : List (String × String) × Nat) (k : String) :
    hasKeyS (maybeAssign cnt key acc).1 k =
      (hasKeyS acc.1 k || (key == k && decide (1 < cnt key))) := by
  unfold maybeAssign
  by_cases hc : (decide (1 < cnt key) && !hasKeyS acc.1 key) = true
  · rw [if_pos hc]
    rw [Bool.and_eq_true] at hc
    simp only [hasKeyS, List.any_append, List.any_cons, List.any_nil, Bool.or_false]
    rw [hc.1]
    simp [hasKeyS]
  · rw [if_neg hc]
    by_cases h1 : decide (1 < cnt key) = true
    · have hb : hasKeyS acc.1 key = true := by
        by_contra hbn
        exact hc (by simp [h1, Bool.not_eq_true _ ▸ hbn, hbn])
      by_cases hk : (key == k) = true
      · have hkk : key = k := eq_of_beq hk
        subst hkk
        simp [hb, h1]
      · simp [Bool.not_eq_true] at hk
        simp [hk]
    · simp [Bool.not_eq_true] at h1
      simp [h1]

lemma assignStep_inv (sc tc : String → Nat) (acc : List (String × String) × Nat) (p : Product)
    (h1 : acc.2 = acc.1.length)
    (h2 : acc.1.map Prod.snd = (List.range acc.1.length).map paletteAt) :
    (assignStep sc tc acc p).2 = (assignStep sc tc acc p).1.length ∧
    (assignStep sc tc acc p).1.map Prod.snd =
      (List.range (assignStep sc tc acc p).1.length).map paletteAt := by
  unfold assignStep
  obtain ⟨g1, g2⟩ := maybeAssign_inv sc (jsToLower p.slug) acc h1 h2
  exact maybeAssign_inv tc (jsToLower p.title) _ g1 g2

lemma assign_fold_inv (sc tc : String → Nat) (l : List Product) :
    ∀ acc : List (String × String) × Nat,
      acc.2 = acc.1.length →
      acc.1.map Prod.snd = (List.range acc.1.length).map paletteAt →
      ((l.foldl (assignStep sc tc) acc).2 = (l.foldl (assignStep sc tc) acc).1.length ∧
        (l.foldl (assignStep sc tc) acc).1.map Prod.snd =
          (List.range (l.foldl (assignStep sc tc) acc).1.length).map paletteAt) := by
  induction l with
  | nil => intro acc h1 h2; exact ⟨h1, h2⟩
  | cons p ps ih =>
    intro acc h1 h2
    obtain ⟨g1, g2⟩ := assignStep_inv sc tc acc p h1 h2
    simpa using ih (assignStep sc tc acc p) g1 g2

lemma hasKeyS_assignStep (sc tc : String → Nat)
    (acc : List (String × String) × Nat) (p : Product) (k : String) :
    hasKeyS (assignStep sc tc acc p).1 k =
      (hasKeyS acc.1 k ||
        (((jsToLower p.slug == k) && decide (1 < sc (jsToLower p.slug))) ||
          ((jsToLower p.title == k) && decide (1 < tc (jsToLower p.title))))) := by
  unfold assignStep
  rw [hasKeyS_maybeAssign, hasKeyS_maybeAssign]
  simp [Bool.or_assoc]

lemma hasKeyS_fold (sc tc : String → Nat) (l : List Product) (k : String) :
    ∀ acc : List (String × String) × Nat,
      hasKeyS ((l.foldl (assignStep sc tc) acc).1) k =
        (hasKeyS acc.1 k || l.any (fun p =>
          ((jsToLower p.slug == k) && decide (1 < sc (jsToLower p.slug))) ||
          ((jsToLower p.title == k) && decide (1 < tc (jsToLower p.title))))) := by
  induction l with
  | nil => intro acc; simp
  | cons p ps ih =>
    intro acc
    simp only [List.foldl_cons, List.any_cons]
    rw [ih (assignStep sc tc acc p), hasKeyS_assignStep]
    simp [Bool.or_assoc]

/-- C8: duplicate-cluster color assignment is a deterministic first-seen-order
function of the record sequence — the assignment list (in assignment order)
carries the palette entries `paletteAt 0, paletteAt 1, ...` in order, i.e.
the i-th assigned cluster key receives `duplicateColors[i % 17]` regardless
of cluster sizes; and a key holds a color exactly when some record's
lowercase slug equals it with slug-count > 1 or some record's lowercase
title equals it with title-count > 1. -/
theorem claim_C8_coloring (l : List Product) (k : String) :
    duplicateColors.length = 17 ∧
    (duplicateGroupsOf l).map Prod.snd =
      (List.range (duplicateGroupsOf l).length).map paletteAt ∧
    hasKeyS (duplicateGroupsOf l) k =
      l.any (fun p =>
        ((jsToLower p.slug == k) && decide (1 < slugCntOf l (jsToLower p.slug))) ||
        ((jsToLower p.title == k) && decide (1 < titleCntOf l (jsToLower p.title)))) := by
  refine ⟨by decide, ?_, ?_⟩
  · exact (assign_fold_inv (slugCntOf l) (titleCntOf l) l ([], 0) rfl rfl).2
  · have := hasKeyS_fold (slugCntOf l) (titleCntOf l) l k ([], 0)
    simpa [duplicateGroupsOf, hasKeyS] using this

lemma lookupKey_setKey (k : String) (v : List String) (q : String)
    (m : List (String × List String)) :
    lookupKey (setKey m k v) q = if q = k then some v else lookupKey m q := by
  have hf1 : ∀ e : String × List String,
      ((if e.1 == k then ((k, v) : String × List String) else e).1) = e.1 := by
    intro e
    by_cases h : (e.1 == k) = true
    · rw [if_pos h]
      exact (eq_of_beq h).symm
    · rw [if_neg h]
  unfold setKey lookupKey
  by_cases h : m.any (fun e => e.1 == k) = true
  · rw [if_pos h, List.find?_map]
    have hpred : ((fun e : String × List String => e.1 == q) ∘
        (fun e => if e.1 == k then (k, v) else e)) = (fun e => e.1 == q) := by
      funext e
      simp only [Function.comp_apply, hf1 e]
    rw [hpred]
    cases hfind : List.find? (fun e => e.1 == q) m with
    | none =>
      by_cases hq : q = k
      · subst hq
        rw [List.find?_eq_none] at hfind
        rw [List.any_eq_true] at h
        obtain ⟨e, hem, hek⟩ := h
        exact absurd hek (hfind e hem)
      · simp [hq]
    | some e =>
      have hpq : (e.1 == q) = true := List.find?_some (p := fun e : String × List String => e.1 == q) hfind
      have heq : e.1 = q := eq_of_beq hpq
      by_cases hq : q = k
      · subst hq
        simp [hpq, heq]
      · have hne : e.1 ≠ k := by
          rw [heq]
          exact hq
        simp [hq, hne]
  · rw [if_neg h, List.find?_append]
    by_cases hq : q = k
    · subst hq
      have hnone : List.find? (fun e => e.1 == q) m = none := by
        rw [List.find?_eq_none]
        intro e hem hek
        exact h (List.any_eq_true.mpr ⟨e, hem, hek⟩)
      rw [hnone]
      simp [List.find?]
    · cases hfind : List.find? (fun e => e.1 == q) m with
      | none =>
        simp only [Option.none_or]
        have : (((k, v) : String × List String).1 == q) = false := by
          simp only [beq_eq_false_iff_ne, ne_eq]
          exact fun hh => hq hh.symm
        simp [List.find?, this, hq]
      | some e =>
        simp [hq]

lemma hasKeyIss_setKey (k : String) (v : List String) (q : String)
    (m : List (String × List String)) :
    hasKeyIss (setKey m k v) q = (hasKeyIss m q || (k == q)) := by
  have hf1 : ∀ e : String × List String,
      ((if e.1 == k then ((k, v) : String × List String) else e).1) = e.1 := by
    intro e
    by_cases h : (e.1 == k) = true
    · rw [if_pos h]
      exact (eq_of_beq h).symm
    · rw [if_neg h]
  unfold setKey hasKeyIss
  by_cases h : m.any (fun e => e.1 == k) = true
  · rw [if_pos h, List.any_map]
    have hpred : ((fun e : String × List String => e.1 == q) ∘
        (fun e => if e.1 == k then (k, v) else e)) = (fun e => e.1 == q) := by
      funext e
      simp only [Function.comp_apply, hf1 e]
    rw [hpred]
    by_cases hk : (k == q) = true
    · rw [eq_of_beq hk] at h
      simp [h]
    · simp only [Bool.not_eq_true] at hk
      simp [hk]
  · rw [if_neg h, List.any_append]
    simp

lemma keyCount_setKey_has (k : String) (v : List String) (q : String)
    (m : List (String × List String)) (h : hasKeyIss m k = true) :
    keyCount (setKey m k v) q = keyCount m q := by
  have hf1 : ∀ e : String × List String,
      ((if e.1 == k then ((k, v) : String × List String) else e).1) = e.1 := by
    intro e
    by_cases hc : (e.1 == k) = true
    · rw [if_pos hc]
      exact (eq_of_beq hc).symm
    · rw [if_neg hc]
  unfold setKey keyCount
  rw [if_pos (show (m.any fun e => e.1 == k) = true from h), List.countP_map]
  congr 1
  funext e
  simp only [Function.comp_apply, hf1 e]

lemma keyCount_setKey_new (k : String) (v : List String) (q : String)
    (m : List (String × List String)) (h : hasKeyIss m k = false) :
    keyCount (setKey m k v) q = keyCount m q + (if k == q then 1 else 0) := by
  unfold setKey keyCount
  rw [if_neg (by rw [show (m.any fun e => e.1 == k) = hasKeyIss m k from rfl, h]; exact
    Bool.false_ne_true), List.countP_append]
  simp [List.countP_cons]

lemma keyCount_zero_of_not_has (q : String) (m : List (String × List String))
    (h : hasKeyIss m q = false) : keyCount m q = 0 := by
  unfold hasKeyIss at h
  unfold keyCount
  rw [List.countP_eq_zero]
  intro e hem hek
  have hx : (m.any fun x => x.1 == q) = true := List.any_eq_true.mpr ⟨e, hem, hek⟩
  rw [hx] at h
  exact absurd h (by decide)

lemma keyCount_setKey_le (k : String) (v : List String) (q : String)
    (m : List (String × List String)) (h : ∀ r, keyCount m r ≤ 1) :
    keyCount (setKey m k v) q ≤ 1 := by
  cases hh : hasKeyIss m k with
  | true => rw [keyCount_setKey_has k v q m hh]; exact h q
  | false =>
    rw [keyCount_setKey_new k v q m hh]
    by_cases hk : (k == q) = true
    · have h0 : keyCount m q = 0 := keyCount_zero_of_not_has q m (eq_of_beq hk ▸ hh)
      simp [h0, hk]
    · have hq := h q
      simp only [Bool.not_eq_true] at hk
      simp [hk]
      omega

lemma wf_qualityStep (sc tc : String → Nat) (m : List (String × List String)) (p : Product)
    (h : ∀ r, keyCount m r ≤ 1) : ∀ r, keyCount (qualityStep sc tc m p) r ≤ 1 := by
  intro r
  unfold qualityStep
  split
  · exact keyCount_setKey_le _ _ _ _ h
  · exact h r

lemma wf_build (sc tc : String → Nat) (l : List Product) :
    ∀ m, (∀ r, keyCount m r ≤ 1) →
      ∀ r, keyCount (l.foldl (qualityStep sc tc) m) r ≤ 1 := by
  induction l with
  | nil => intro m h; exact h
  | cons p ps ih =>
    intro m h
    rw [List.foldl_cons]
    exact ih (qualityStep sc tc m p) (wf_qualityStep sc tc m p h)

lemma isEmpty_false_of_len (L : List String) (h : L.length > 0) : L.isEmpty = false := by
  cases L with
  | nil => simp at h
  | cons a t => rfl

lemma isEmpty_true_of_len (L : List String) (h : ¬ L.length > 0) : L.isEmpty = true := by
  cases L with
  | nil => rfl
  | cons a t => simp at h

lemma hasKeyIss_qualityStep (sc tc : String → Nat) (m : List (String × List String))
    (p : Product) (k : String) :
    hasKeyIss (qualityStep sc tc m p) k =
      (hasKeyIss m k || (identityKey p == k && !(productIssues sc tc p).isEmpty)) := by
  unfold qualityStep
  by_cases h : (productIssues sc tc p).length > 0
  · rw [if_pos h, hasKeyIss_setKey, isEmpty_false_of_len _ h]
    simp [BEq.comm]
  · rw [if_neg h, isEmpty_true_of_len _ h]
    simp

lemma hasKeyIss_build (sc tc : String → Nat) (l : List Product) (k : String) :
    ∀ m, hasKeyIss (l.foldl (qualityStep sc tc) m) k =
      (hasKeyIss m k ||
        l.any (fun p => identityKey p == k && !(productIssues sc tc p).isEmpty)) := by
  induction l with
  | nil => intro m; simp
  | cons p ps ih =>
    intro m
    rw [List.foldl_cons, ih (qualityStep sc tc m p), hasKeyIss_qualityStep]
    simp [Bool.or_assoc]

lemma lookup_build (sc tc : String → Nat) (k : String) (l : List Product) :
    ∀ m, lookupKey (l.foldl (qualityStep sc tc) m) k =
      match lastDef sc tc k l with
      | some v => some v
      | none => lookupKey m k := by
  induction l with
  | nil => intro m; rfl
  | cons p ps ih =>
    intro m
    rw [List.foldl_cons, ih (qualityStep sc tc m p)]
    cases hld : lastDef sc tc k ps with
    | some v => simp [lastDef, hld]
    | none =>
      simp only [lastDef, hld]
      unfold qualityStep
      by_cases h : (productIssues sc tc p).length > 0
      · rw [if_pos h, lookupKey_setKey, isEmpty_false_of_len _ h]
        by_cases hk : k = identityKey p
        · rw [if_pos hk, if_pos (by rw [hk]; simp)]
        · rw [if_neg hk, if_neg (by
            intro hh
            rw [Bool.and_eq_true] at hh
            exact hk (eq_of_beq hh.1).symm)]
      · rw [if_neg h, isEmpty_true_of_len _ h]
        simp

lemma lastDef_eq_getLast (sc tc : String → Nat) (k : String) :
    ∀ l : List Product,
      lastDef sc tc k l =
        ((l.filter (fun p => identityKey p == k &&
            !(productIssues sc tc p).isEmpty)).getLast?).map
          (fun p => productIssues sc tc p) := by
  intro l
  induction l with
  | nil => rfl
  | cons p ps ih =>
    by_cases hp : (identityKey p == k && !(productIssues sc tc p).isEmpty) = true
    · rw [List.filter_cons, if_pos hp]
      cases hfl : ps.filter (fun p => identityKey p == k &&
          !(productIssues sc tc p).isEmpty) with
      | nil =>
        rw [hfl] at ih
        simp only [lastDef, ih]
        simp [hp]
      | cons q qs =>
        rw [hfl] at ih
        rw [List.getLast?_cons_cons]
        simp only [lastDef, ih]
        cases hgl : (q :: qs).getLast? with
        | none => simp at hgl
        | some r => simp
    · rw [List.filter_cons, if_neg hp]
      simp only [lastDef, ih]
      cases hgl : (ps.filter (fun p => identityKey p == k &&
          !(productIssues sc tc p).isEmpty)).getLast? with
      | none => simp [hp]
      | some r => simp

/-- C9: when two or more records that each have at least one defect share the
same identity key (slug, else title, else `"unknown"`), the analyzer's result
map holds exactly one entry for that identity, and that entry is the defect
list of the last such record in input order — earlier lists are overwritten,
not retained. -/
theorem claim_C9_last_wins (l : List Product) (k : String)
    (h : 2 ≤ (l.filter (fun p => identityKey p == k &&
        !(productIssuesFull l p).isEmpty)).length) :
    keyCount (checkDataQuality l) k = 1 ∧
    lookupKey (checkDataQuality l) k =
      ((l.filter (fun p => identityKey p == k &&
          !(productIssuesFull l p).isEmpty)).getLast?).map
        (fun p => productIssuesFull l p) := by
  have hex : ∃ p ∈ l, (identityKey p == k &&
      !(productIssues (slugCntOf l) (titleCntOf l) p).isEmpty) = true := by
    cases hfl : l.filter (fun p => identityKey p == k &&
        !(productIssuesFull l p).isEmpty) with
    | nil => rw [hfl] at h; simp at h
    | cons a t =>
      have ham : a ∈ l.filter (fun p => identityKey p == k &&
          !(productIssuesFull l p).isEmpty) := by
        rw [hfl]
        exact List.mem_cons_self a t
      rw [List.mem_filter] at ham
      exact ⟨a, ham.1, by simpa [productIssuesFull] using ham.2⟩
  constructor
  · have hwf := wf_build (slugCntOf l) (titleCntOf l) l []
      (by intro r; simp [keyCount]) k
    have hhk : hasKeyIss (checkDataQuality l) k = true := by
      unfold checkDataQuality
      rw [hasKeyIss_build]
      simp only [hasKeyIss, List.any_nil, Bool.false_or]
      exact List.any_eq_true.mpr hex
    have hge : 0 < keyCount (checkDataQuality l) k := by
      unfold keyCount
      rw [List.countP_pos_iff]
      have := List.any_eq_true.mp hhk
      exact this
    have hle := hwf
    unfold checkDataQuality at hge hle ⊢
    omega
  · unfold checkDataQuality
    rw [lookup_build, lastDef_eq_getLast]
    cases hgl : ((l.filter (fun p => identityKey p == k &&
        !(productIssues (slugCntOf l) (titleCntOf l) p).isEmpty)).getLast?) with
    | none => simp [productIssuesFull, hgl, lookupKey]
    | some r => simp [productIssuesFull, hgl]

/-- First of two defective records sharing identity `"a"`. -/
def q1 : Product := { emptyProduct with slug := "a", title := "x" }
/-- Second (last) of two defective records sharing identity `"a"`. -/
def q2 : Product := { emptyProduct with slug := "a", title := "y" }

/-- C9 witness: two defective records sharing slug `"a"`; the map keeps one
entry holding the second record's defect list. -/
theorem claim_C9_witness :
    2 ≤ ([q1, q2].filter (fun p => identityKey p == "a" &&
        !(productIssuesFull [q1, q2] p).isEmpty)).length ∧
    (keyCount (checkDataQuality [q1, q2]) "a" = 1 ∧
      lookupKey (checkDataQuality [q1, q2]) "a" =
        (([q1, q2].filter (fun p => identityKey p == "a" &&
            !(productIssuesFull [q1, q2] p).isEmpty)).getLast?).map
          (fun p => productIssuesFull [q1, q2] p)) :=
  ⟨by decide, claim_C9_last_wins [q1, q2] "a" (by decide)⟩

lemma mergeF_perm (le : Product → Product → Bool) :
    ∀ (n : Nat) (xs ys : List Product), (mergeF le n xs ys).Perm (xs ++ ys) := by
  intro n
  induction n with
  | zero => intro xs ys; exact List.Perm.refl _
  | succ n ih =>
    intro xs ys
    cases xs with
    | nil => simp [mergeF]
    | cons x xs =>
      cases ys with
      | nil => simp [mergeF]
      | cons y ys =>
        rw [mergeF]
        by_cases h : le x y = true
        · rw [if_pos h]
          exact (ih xs (y :: ys)).cons x
        · rw [if_neg h]
          refine List.Perm.trans ((ih (x :: xs) ys).cons y) ?_
          exact (List.perm_middle).symm

lemma mergeL_perm (le : Product → Product → Bool) (xs ys : List Product) :
    (mergeL le xs ys).Perm (xs ++ ys) :=
  mergeF_perm le (xs.length + ys.length) xs ys

lemma mergeSortF_perm (le : Product → Product → Bool) :
    ∀ (n : Nat) (l : List Product), (mergeSortF le n l).Perm l := by
  intro n
  induction n with
  | zero => intro l; exact List.Perm.refl _
  | succ n ih =>
    intro l
    rw [mergeSortF]
    by_cases h : l.length ≤ 1
    · rw [if_pos h]
    · rw [if_neg h]
      refine List.Perm.trans (mergeL_perm le _ _) ?_
      refine List.Perm.trans (List.Perm.append (ih _) (ih _)) ?_
      rw [List.take_append_drop]

lemma jsSort_perm (l : List Product) : (jsSort l).Perm l :=
  mergeSortF_perm _ l.length l

lemma mergeF_pairwise (le : Product → Product → Bool) (P : Product → Bool)
    (hPle : ∀ a b, P a = true → P b = false → le a b = true)
    (hPnle : ∀ a b, P a = false → P b = true → le a b = false) :
    ∀ (n : Nat) (xs ys : List Product), xs.length + ys.length ≤ n →
      xs.Pairwise (fun a b => P b = true → P a = true) →
      ys.Pairwise (fun a b => P b = true → P a = true) →
      (mergeF le n xs ys).Pairwise (fun a b => P b = true → P a = true) := by
  intro n
  induction n with
  | zero =>
    intro xs ys hn _ _
    have hx : xs = [] := List.length_eq_zero.mp (by omega)
    have hy : ys = [] := List.length_eq_zero.mp (by omega)
    subst hx
    subst hy
    simp [mergeF]
  | succ n ih =>
    intro xs ys hn hxs hys
    cases xs with
    | nil => simpa [mergeF] using hys
    | cons x xs =>
      cases ys with
      | nil => simpa [mergeF] using hxs
      | cons y ys =>
        rw [mergeF]
        simp only [List.length_cons] at hn
        obtain ⟨hxrel, hxs'⟩ := List.pairwise_cons.mp hxs
        obtain ⟨hyrel, hys'⟩ := List.pairwise_cons.mp hys
        by_cases h : le x y = true
        · rw [if_pos h]
          refine List.pairwise_cons.mpr ⟨?_, ih xs (y :: ys) (by simp; omega) hxs' hys⟩
          intro z hz hPz
          have hz' : z ∈ xs ∨ z ∈ y :: ys := by
            have := (mergeF_perm le n xs (y :: ys)).mem_iff.mp hz
            simpa using this
          by_contra hPx
          simp only [Bool.not_eq_true] at hPx
          have hPy : P y = false := by
            cases hPyc : P y with
            | false => rfl
            | true => exact absurd h (by rw [hPnle x y hPx hPyc]; decide)
          rcases hz' with hz' | hz'
          · exact absurd (hxrel z hz' hPz) (by rw [hPx]; decide)
          · rcases List.mem_cons.mp hz' with hz' | hz'
            · subst hz'
              rw [hPz] at hPy
              exact absurd hPy (by decide)
            · have := hyrel z hz' hPz
              rw [this] at hPy
              exact absurd hPy (by decide)
        · rw [if_neg h]
          refine List.pairwise_cons.mpr ⟨?_, ih (x :: xs) ys (by simp; omega) hxs hys'⟩
          intro z hz hPz
          have hz' : z = x ∨ z ∈ xs ∨ z ∈ ys := by
            have := (mergeF_perm le n (x :: xs) ys).mem_iff.mp hz
            simpa using this
          by_contra hPy
          simp only [Bool.not_eq_true] at hPy
          have hPx : P x = false := by
            cases hPxc : P x with
            | false => rfl
            | true => exact absurd (hPle x y hPxc hPy) h
          rcases hz' with hz' | hz' | hz'
          · subst hz'
            rw [hPz] at hPx
            exact absurd hPx (by decide)
          · have := hxrel z hz' hPz
            rw [this] at hPx
            exact absurd hPx (by decide)
          · exact absurd (hyrel z hz' hPz) (by rw [hPy]; decide)

lemma mergeSortF_pairwise (le : Product → Product → Bool) (P : Product → Bool)
    (hPle : ∀ a b, P a = true → P b = false → le a b = true)
    (hPnle : ∀ a b, P a = false → P b = true → le a b = false) :
    ∀ (n : Nat) (l : List Product), l.length ≤ n →
      (mergeSortF le n l).Pairwise (fun a b => P b = true → P a = true) := by
  intro n
  induction n with
  | zero =>
    intro l hn
    have : l = [] := List.length_eq_zero.mp (by omega)
    subst this
    simp [mergeSortF]
  | succ n ih =>
    intro l hn
    rw [mergeSortF]
    by_cases h : l.length ≤ 1
    · rw [if_pos h]
      cases l with
      | nil => simp
      | cons a t =>
        cases t with
        | nil => simp
        | cons b s => simp at h
    · rw [if_neg h]
      unfold mergeL
      refine mergeF_pairwise le P hPle hPnle _ _ _ le_rfl ?_ ?_
      · refine ih _ ?_
        rw [List.length_take]
        omega
      · refine ih _ ?_
        rw [List.length_drop]
        omega

lemma jsCompare_dup_first (l : List Product) (a b : Product)
    (ha : hasDup l a = true) (hb : hasDup l b = false) : jsCompare l a b = -1 := by
  unfold hasDup at ha hb
  unfold jsCompare
  simp only [ha, hb]
  rfl

lemma jsCompare_nondup_last (l : List Product) (a b : Product)
    (ha : hasDup l a = false) (hb : hasDup l b = true) : jsCompare l a b = 1 := by
  unfold hasDup at ha hb
  unfold jsCompare
  simp only [ha, hb]
  rfl

lemma hasDup_perm (l l' : List Product) (h : l.Perm l') (p : Product) :
    hasDup l p = hasDup l' p := by
  unfold hasDup slugDupIn titleDupIn
  rw [h.countP_eq, h.countP_eq]

/-- C5 (amended): in the View Pipeline's output, every record that belongs to
a duplicate cluster of the filtered subset (slug or title counts recomputed
over the filtered subset itself) appears before every record that belongs to
no cluster; the stronger claims that same-cluster records appear together
and that cluster groups are ordered by ascending normalized key do NOT hold
(see the counterexample). -/
theorem claim_C5_grouping (products : List Product) (term : String)
    (qf : Bool) (df : Option String) (issues : List (String × List String)) :
    (filteredProducts products term qf df issues).Pairwise
      (fun a b => hasDup (filteredProducts products term qf df issues) b = true →
        hasDup (filteredProducts products term qf df issues) a = true) := by
  unfold filteredProducts jsSort
  set filtered := qualityFilterStep qf df issues (products.filter (searchMatch term)) with hf
  set le : Product → Product → Bool := fun a b => decide (jsCompare filtered a b ≤ 0) with hle
  have hperm : (mergeSortF le filtered.length filtered).Perm filtered :=
    mergeSortF_perm le filtered.length filtered
  have hmain := mergeSortF_pairwise le (fun p => hasDup filtered p)
    (by
      intro a b hpa hpb
      rw [hle]
      simp only [decide_eq_true_eq]
      rw [jsCompare_dup_first filtered a b hpa hpb]
      decide)
    (by
      intro a b hpa hpb
      rw [hle]
      simp only [decide_eq_false_iff_not]
      rw [jsCompare_nondup_last filtered a b hpa hpb]
      decide)
    filtered.length filtered le_rfl
  refine List.Pairwise.imp ?_ hmain
  intro a b hab hb
  rw [hasDup_perm _ filtered hperm] at hb ⊢
  exact hab hb

/-- Slug-cluster member 1 (slug `"s"`). -/
def c5r1 : Product := { emptyProduct with slug := "s", title := "x" }
/-- Title-cluster member (title `"y"`), slug `"t"`. -/
def c5r2 : Product := { emptyProduct with slug := "t", title := "y" }
/-- Slug-cluster member 2 (slug `"s"`). -/
def c5r3 : Product := { emptyProduct with slug := "s", title := "z" }
/-- Title-cluster member (title `"y"`), slug `"u"`. -/
def c5r4 : Product := { emptyProduct with slug := "u", title := "y" }

/-- C5 counterexample: with no search text and no filters, the pipeline
returns the four records in input order `[c5r1, c5r2, c5r3, c5r4]`, yet
`c5r1` and `c5r3` share the slug-cluster `"s"` while the interleaved `c5r2`
does not belong to it — records sharing a slug-cluster do NOT appear
together (and the slug sequence `s, t, s` is not ascending), refuting the
claimed within-duplicates grouping/ordering. -/
theorem claim_C5_counterexample :
    filteredProducts [c5r1, c5r2, c5r3, c5r4] "" false none [] = [c5r1, c5r2, c5r3, c5r4] ∧
    slugDupIn [c5r1, c5r2, c5r3, c5r4] c5r1 = true ∧
    slugDupIn [c5r1, c5r2, c5r3, c5r4] c5r3 = true ∧
    jsToLower c5r1.slug = jsToLower c5r3.slug ∧
    slugDupIn [c5r1, c5r2, c5r3, c5r4] c5r2 = false ∧
    jsToLower c5r2.slug ≠ jsToLower c5r1.slug := by
  decide
